import Mathlib

/-!
Verification of the Strat_Tester session orchestration engine
(`backend/core/paper_trading.py`) and backtest simulator
(`backend/backtest/engine.py`) against the natural-language specification.

The Python code is shallowly embedded: floats become `Rat` (the operations the
properties depend on are field-algebraic: `+ - * min max abs` and comparisons),
ISO timestamp strings become a three-valued `TimeStr` (absent key / present but
unparseable / parsed instant), broker calls become explicit `Except`-valued
inputs, and each `async` method becomes a pure function from its inputs and the
pre-state to the post-state plus the broker commands it issued.
-/

namespace StratTester

/-- Lifecycle states of `TradingStatus` in `paper_trading.py`. -/
inductive TradingStatus where
  | stopped
  | starting
  | running
  | paused
  | error
  | stopping
deriving DecidableEq, Repr

/-- Model of an ISO-8601 timestamp string as it flows through `.get` and
`datetime.fromisoformat`: the key may be absent (Python default kicks in), the
string may be present but unparseable (raises `ValueError`), or parse to an
instant (modelled as an integer). -/
inductive TimeStr where
  | missing
  | bad
  | good (t : Int)
deriving DecidableEq, Repr

/-- Result of `datetime.fromisoformat` on a `TimeStr`: `none` means the parse
raises. -/
def TimeStr.parse? : TimeStr → Option Int
  | .good t => some t
  | _ => none

/-- Mirrors the `Position` dataclass of `paper_trading.py`. -/
structure Position where
  instrument : String
  units : Rat
  avg_price : Rat
  unrealized_pl : Rat := 0
  margin_used : Rat := 0
deriving DecidableEq, Repr

/-- Mirrors the `Trade` dataclass of `paper_trading.py`: `close_time` and
`close_price` are `none` while the trade is open. -/
structure Trade where
  id : String
  instrument : String
  open_time : Int
  close_time : Option Int
  open_price : Rat
  close_price : Option Rat
  units : Rat
  realized_pl : Rat := 0
deriving DecidableEq, Repr

/-- Mirrors the `PaperTradingSession` dataclass.  Dictionaries become
association lists, the trade-id set becomes a duplicate-free list, monotonic
clock values become `Rat`, datetimes become `Int`. -/
structure PaperTradingSession where
  session_id : String
  account_id : String
  strategy_name : String
  strategy_params : List (String × String) := []
  instrument : String
  granularity : String
  status : TradingStatus := .stopped
  initial_balance : Rat := 0
  current_balance : Rat := 0
  equity : Rat := 0
  unrealized_pl : Rat := 0
  realized_pl : Rat := 0
  margin_used : Rat := 0
  margin_available : Rat := 0
  total_trades : Nat := 0
  winning_trades : Nat := 0
  losing_trades : Nat := 0
  positions : List (String × Position) := []
  open_trades : List (String × Trade) := []
  closed_trades : List Trade := []
  session_position_units : Rat := 0
  session_trade_ids : List String := []
  start_time : Option Int := none
  last_update : Option Int := none
  error_message : Option String := none
  max_position_size : Rat := 10000
  max_daily_loss : Rat := 1000
  daily_loss : Rat := 0
  next_metrics_update : Rat := 0
  next_bar_poll : Rat := 0
  last_transaction_time : Option TimeStr := none
  next_transaction_sync : Rat := 0
deriving DecidableEq, Repr

/-- Insert into a `set`-valued field (`session_trade_ids`): no duplicates. -/
def set_insert (l : List String) (x : String) : List String :=
  if x ∈ l then l else l ++ [x]

/-- Dict assignment `d[k] = v` on an association list. -/
def dict_insert {α : Type} (m : List (String × α)) (k : String) (v : α) :
    List (String × α) :=
  if m.any (fun p => p.1 == k) then
    m.map (fun p => if p.1 == k then (k, v) else p)
  else m ++ [(k, v)]

/-- Dict lookup `d.get(k)` on an association list. -/
def dict_find? {α : Type} (m : List (String × α)) (k : String) : Option α :=
  (m.find? (fun p => p.1 == k)).map (·.2)

/-- Broker-side position entry as returned by `client.get_positions`
(`pos["long"]["units"]`, `pos["short"]["units"]`, average prices, P&L). -/
structure BrokerPosRaw where
  instrument : String
  longUnits : Rat
  shortUnits : Rat
  longAvgPrice : Rat := 0
  shortAvgPrice : Rat := 0
  unrealizedPL : Rat := 0
deriving DecidableEq, Repr

/-- Broker order/close command issued by the engine. -/
inductive BrokerCommand where
  | marketOrder (instrument : String) (units : Rat) (accountId : String)
  | closePosition (instrument : String) (accountId : String)
deriving DecidableEq, Repr

/-- Engine-level constants from `PaperTradingEngine`. -/
def maxClosedTrades : Nat := 200

/-- Constant `MAX_CONCURRENT_SESSIONS`. -/
def maxConcurrentSessions : Nat := 10

/-- Constant `TRANSACTION_REFRESH_SECONDS`. -/
def transactionRefreshSeconds : Rat := 60

/-- Engine registry state: `self.sessions`, `self.running_tasks` (keys only:
a key present means a live task object), `self.clients` (keys only). -/
structure EngineState where
  sessions : List PaperTradingSession
  runningTasks : List String
  clients : List String
deriving DecidableEq, Repr

/-- Mirrors `PaperTradingEngine.create_session`: duplicate-id and
concurrent-running-capacity checks, then a fresh session in `STOPPED` with all
counters at their dataclass defaults. -/
def create_session (sessions : List PaperTradingSession)
    (sid accountId strategyName : String)
    (strategyParams : List (String × String))
    (instrument granularity : String)
    (maxPositionSize maxDailyLoss : Rat) : Except String PaperTradingSession :=
  if sessions.any (fun t => t.session_id == sid) then
    .error "Session already exists"
  else if maxConcurrentSessions ≤
      (sessions.filter (fun t => t.status == .running)).length then
    .error "Maximum concurrent sessions reached"
  else
    .ok { session_id := sid, account_id := accountId,
          strategy_name := strategyName, strategy_params := strategyParams,
          instrument := instrument, granularity := granularity,
          max_position_size := maxPositionSize,
          max_daily_loss := maxDailyLoss }

/-- Result of `start_session`: the session as left behind when the coroutine
returns or raises, whether the trading-loop task was spawned, the raised
exception message (if any), and the successive values assigned to
`session.status` during the call (to observe transient states). -/
structure StartResult where
  session : PaperTradingSession
  taskSpawned : Bool
  raised : Option String
  statusWrites : List TradingStatus
deriving DecidableEq, Repr

/-- Mirrors `PaperTradingEngine.start_session` for a session already present in
the registry.  `now` is `time.monotonic()`, `nowDt` is
`datetime.now(timezone.utc)`.  `clientExists` says whether
`session_id in self.clients`; `clientCreate` is the outcome of constructing a
new `OandaTradingClient` when it does not; `balanceFetch` is the outcome of
`client.get_account_summary`; `spawnFail` is the (defensively handled) outcome
of `asyncio.create_task`.  Note the source sets `status = RUNNING`
unconditionally after spawning the task, overwriting the `ERROR` written by the
balance-fetch handler. -/
def start_session (s : PaperTradingSession) (now : Rat) (nowDt : Int)
    (clientExists : Bool) (clientCreate : Except String Unit)
    (balanceFetch : Except String Rat) (spawnFail : Option String) :
    StartResult :=
  if s.status == .running then
    ⟨s, false, none, []⟩
  else
    let s1 := { s with status := .starting, start_time := some nowDt,
                       error_message := none,
                       next_metrics_update := now, next_bar_poll := now,
                       next_transaction_sync := now,
                       last_transaction_time := some (.good nowDt) }
    match (if clientExists then Except.ok () else clientCreate) with
    | .error e =>
        ⟨{ s1 with status := .error,
                   error_message := some ("Failed to create OANDA client: " ++ e) },
         false, some e, [.starting, .error]⟩
    | .ok _ =>
      let s2 := match balanceFetch with
        | .ok b => { s1 with initial_balance := b, current_balance := b,
                             equity := b }
        | .error e =>
            { s1 with status := .error,
                      error_message :=
                        some ("Failed to get account balance: " ++ e) }
      let writes := match balanceFetch with
        | .ok _ => [TradingStatus.starting]
        | .error _ => [TradingStatus.starting, TradingStatus.error]
      match spawnFail with
      | some e =>
          ⟨{ s2 with status := .error,
                     error_message :=
                       some ("Failed to start trading loop: " ++ e) },
           false, some e, writes ++ [TradingStatus.error]⟩
      | none =>
          ⟨{ s2 with status := .running }, true, none,
           writes ++ [TradingStatus.running]⟩

/-- Mirrors `PaperTradingEngine.pause_session` on a found session. -/
def pause_session (s : PaperTradingSession) : PaperTradingSession :=
  if s.status == .running then { s with status := .paused } else s

/-- Mirrors `PaperTradingEngine.resume_session` on a found session: resumes and
resets the three scheduling cursors to "due now". -/
def resume_session (s : PaperTradingSession) (now : Rat) :
    PaperTradingSession :=
  if s.status == .paused then
    { s with status := .running, next_metrics_update := now,
             next_bar_poll := now, next_transaction_sync := now }
  else s

/-- The other-`RUNNING`-sessions-on-same-account/instrument check performed by
`stop_session` and `_trading_loop`. -/
def has_coresident (sessions : List PaperTradingSession)
    (s : PaperTradingSession) : Bool :=
  sessions.any (fun t =>
    t.account_id == s.account_id && t.instrument == s.instrument &&
    t.session_id != s.session_id && t.status == .running)

/-- Position-flattening phase of `stop_session` (lines 287-358): given whether
co-resident sessions exist and the result of `client.get_positions`, returns
the session as mutated and the broker orders issued.  With co-residents, only
the first position entry matching the instrument is examined and at most
`min(|session_position_units|, |net|)` units are closed on the matching side;
without co-residents every matching position is closed outright. -/
def stop_flatten (s : PaperTradingSession) (others : Bool)
    (posFetch : Except String (List BrokerPosRaw)) :
    PaperTradingSession × List BrokerCommand :=
  let res :=
    if others then
      if 0 < |s.session_position_units| then
        match posFetch with
        | .error _ => (s.session_position_units, [])
        | .ok ps =>
          match ps.find? (fun p => p.instrument == s.instrument) with
          | none => (s.session_position_units, [])
          | some p =>
            let net := p.longUnits - p.shortUnits
            let cs :=
              if 0 < s.session_position_units then
                if 0 < net then
                  let cu := min s.session_position_units net
                  if 0 < cu then
                    [BrokerCommand.marketOrder s.instrument (-cu) s.account_id]
                  else []
                else []
              else if s.session_position_units < 0 then
                if net < 0 then
                  let cu := max s.session_position_units net
                  if cu < 0 then
                    [BrokerCommand.marketOrder s.instrument |cu| s.account_id]
                  else []
                else []
              else []
            ((0 : Rat), cs)
      else (s.session_position_units, [])
    else
      match posFetch with
      | .error _ => (s.session_position_units, [])
      | .ok ps =>
          ((0 : Rat),
           (ps.filter (fun p => p.instrument == s.instrument)).map
             (fun p => BrokerCommand.closePosition p.instrument s.account_id))
  ({ s with status := .stopped, session_position_units := res.1 }, res.2)

/-- Mirrors `PaperTradingEngine.stop_session` for a session `s` found under
`sid`: sets `STOPPING`, cancels and removes the task entry, flattens this
session's share of the position, sets `STOPPED`, and writes the mutated
session back into the registry. -/
def stop_session_apply (st : EngineState) (sid : String)
    (s : PaperTradingSession) (posFetch : Except String (List BrokerPosRaw)) :
    EngineState × List BrokerCommand :=
  let s1 := { s with status := .stopping }
  let others := has_coresident st.sessions s1
  let res := stop_flatten s1 others posFetch
  ({ st with
      sessions := st.sessions.map (fun t =>
        if t.session_id == sid then res.1 else t),
      runningTasks := st.runningTasks.filter (fun k => k != sid) }, res.2)

/-- Mirrors `PaperTradingEngine.stop_session` including the not-found raise. -/
def stop_session (st : EngineState) (sid : String)
    (posFetch : Except String (List BrokerPosRaw)) :
    Except String (EngineState × List BrokerCommand) :=
  match st.sessions.find? (fun t => t.session_id == sid) with
  | none => .error "Session not found"
  | some s => .ok (stop_session_apply st sid s posFetch)

/-- Mirrors `PaperTradingEngine.delete_session`: stop first only when the
status is exactly `RUNNING`, then remove the session and release its client.
The `running_tasks` entry is only touched through `stop_session`. -/
def delete_session (st : EngineState) (sid : String)
    (posFetch : Except String (List BrokerPosRaw)) :
    EngineState × List BrokerCommand :=
  match st.sessions.find? (fun t => t.session_id == sid) with
  | none => (st, [])
  | some s =>
    let res :=
      if s.status == .running then stop_session_apply st sid s posFetch
      else (st, [])
    ({ res.1 with
        sessions := res.1.sessions.filter (fun t => t.session_id != sid),
        clients := res.1.clients.filter (fun k => k != sid) }, res.2)

/-- Fill confirmation fields of `create_market_order` consulted by
`_execute_position_change` (`orderFillTransaction.tradeOpened.tradeID` and
`.tradeReduced.tradeID`; `none` throughout models a result without them). -/
structure OrderFill where
  tradeOpenedId : Option String := none
  tradeReducedId : Option String := none
deriving DecidableEq, Repr

/-- Mirrors `PaperTradingEngine._execute_position_change`: converts the
strategy-space positions to units, clamps to `max_position_size`, skips deltas
below one unit, and on a successful order records the fill trade ids and
accumulates `session_position_units`; on a failed order only `error_message`
is written.  The second component lists the market orders issued. -/
def execute_position_change (s : PaperTradingSession)
    (oldPosition newPosition : Rat) (orderResult : Except String OrderFill) :
    PaperTradingSession × List BrokerCommand :=
  let old_units := oldPosition * s.max_position_size
  let new_units0 := newPosition * s.max_position_size
  let new_units :=
    if s.max_position_size < |new_units0| then
      s.max_position_size * (if 0 < newPosition then 1 else -1)
    else new_units0
  let position_delta := new_units - old_units
  if |position_delta| < 1 then (s, [])
  else
    match orderResult with
    | .error e =>
        ({ s with error_message := some ("Order execution failed: " ++ e) },
         [BrokerCommand.marketOrder s.instrument position_delta s.account_id])
    | .ok fill =>
      let ids := s.session_trade_ids
      let ids := match fill.tradeOpenedId with
        | some tid => set_insert ids tid
        | none => ids
      let ids := match fill.tradeReducedId with
        | some tid => set_insert ids tid
        | none => ids
      ({ s with session_trade_ids := ids,
                session_position_units :=
                  s.session_position_units + position_delta },
       [BrokerCommand.marketOrder s.instrument position_delta s.account_id])

/-- The risk check at the top of each `_trading_loop` iteration
(`session.daily_loss >= session.max_daily_loss`); `true` forces `PAUSED`. -/
def risk_breach_check (s : PaperTradingSession) : Bool :=
  s.max_daily_loss ≤ s.daily_loss

/-- An OHLC bar as in `strategies/base.py` (`ts` is epoch seconds). -/
structure Bar where
  ts : Rat
  o : Rat
  h : Rat
  l : Rat
  c : Rat
deriving DecidableEq, Repr

/-- Outcome of the candle-fetch-and-process block of one `_trading_loop`
iteration (lines 529-582): the session as mutated, whether
`_execute_position_change` was invoked, the execution price handed to it, and
the updated `last_bar_time` local. -/
structure CandleOutcome where
  session : PaperTradingSession
  executed : Bool
  execPrice : Option Rat
  lastBarTime : Rat
deriving DecidableEq, Repr

/-- Mirrors the candle block of `_trading_loop` (lines 529-582).
`fetchResult` is `fetch_candles(count=1)`; `targetOf` is the strategy's
`on_bar` output (`ctx.position` after the call) on the fetched bar, starting
from `oldPos`; `quote` is `client.get_pricing`, whose successful payload is
`some closeoutBid` when `pricing["prices"]` is non-empty and `none` when it is
empty.  An exception raised by `get_pricing` lands in the `except` handler at
line 578: the position change is not executed and the poll cursor backs off,
but `last_bar_time` was already advanced at line 550. -/
def candle_step (s : PaperTradingSession) (now : Rat)
    (barPollInterval minBarPoll : Rat) (lastBarTime : Rat) (oldPos : Rat)
    (fetchResult : Except String (List Bar)) (targetOf : Bar → Rat)
    (quote : Except String (Option Rat))
    (orderResult : Except String OrderFill) (nowDt : Int) : CandleOutcome :=
  let s0 := { s with next_bar_poll := now + barPollInterval }
  match fetchResult with
  | .error _ =>
      ⟨{ s0 with next_bar_poll := now + minBarPoll }, false, none, lastBarTime⟩
  | .ok latest_bars =>
    match latest_bars.getLast? with
    | none => ⟨s0, false, none, lastBarTime⟩
    | some latest_bar =>
      if latest_bar.ts ≤ lastBarTime then ⟨s0, false, none, lastBarTime⟩
      else
        let new_position := targetOf latest_bar
        if oldPos = new_position then
          ⟨{ s0 with last_update := some nowDt }, false, none, latest_bar.ts⟩
        else
          match quote with
          | .error _ =>
              ⟨{ s0 with next_bar_poll := now + minBarPoll },
               false, none, latest_bar.ts⟩
          | .ok priced =>
            let current_price := match priced with
              | some p => p
              | none => latest_bar.c
            let s1 :=
              (execute_position_change s0 oldPos new_position orderResult).1
            ⟨{ s1 with last_update := some nowDt },
             true, some current_price, latest_bar.ts⟩

/-- Account summary payload consumed by `_update_account_metrics`. -/
structure AccountSummary where
  balance : Rat
  nav : Rat
  unrealizedPL : Rat
  marginUsed : Rat
  marginAvailable : Rat
deriving DecidableEq, Repr

/-- Broker open-trade listing entry consumed by `_update_account_metrics`
(`trade.get("id")` may be absent, `openTime` is a raw string field). -/
structure BrokerTrade where
  id : Option String
  instrument : String
  openTime : TimeStr
  price : Rat
  currentUnits : Rat
  unrealizedPL : Rat
deriving DecidableEq, Repr

/-- Transaction-history entry consumed by the closed-trade replay. -/
structure BrokerTransaction where
  txId : String
  txType : String
  tradeID : Option String
  instrument : Option String
  pl : Rat
  price : Rat
  time : TimeStr
  units : Rat
deriving DecidableEq, Repr

/-- Balance/equity/margin refresh of `_update_account_metrics`
(lines 667-675). -/
def apply_summary (s : PaperTradingSession) (a : AccountSummary) :
    PaperTradingSession :=
  { s with current_balance := a.balance, equity := a.nav,
           unrealized_pl := a.unrealizedPL,
           realized_pl := a.balance - s.initial_balance,
           margin_used := a.marginUsed,
           margin_available := a.marginAvailable }

/-- Positions rebuild of `_update_account_metrics` (lines 677-696): keyed by
instrument, zero-net entries skipped. -/
def rebuild_positions (ps : List BrokerPosRaw) : List (String × Position) :=
  ps.foldl (fun acc p =>
    let net := p.longUnits - p.shortUnits
    if 0 < |net| then
      let avg := if p.longUnits ≠ 0 then p.longAvgPrice else p.shortAvgPrice
      dict_insert acc p.instrument
        ⟨p.instrument, net, avg, p.unrealizedPL, 0⟩
    else acc) []

/-- Open-trades rebuild loop of `_update_account_metrics` (lines 708-746),
threading the Python local `open_time_str` explicitly: it is assigned only
inside the instrument-and-start-time fallback branch, yet read at line 740 for
every trade deemed to belong to the session.  `otsVar = none` models the
variable being unbound (reading it raises `NameError`); `some .missing` models
the empty-string default and `some .bad` an unparseable string (reading either
through `fromisoformat` raises `ValueError`).  Any such raise aborts the whole
metrics pass with the session's partially rebuilt state (`Except.error`).
On success, returns the session (open trades rebuilt, retroactive ids added)
and `current_open_trade_ids`. -/
def open_trades_loop (s : PaperTradingSession) (currentIds : List String)
    (otsVar : Option TimeStr) :
    List BrokerTrade →
      Except PaperTradingSession (PaperTradingSession × List String)
  | [] => .ok (s, currentIds)
  | t :: rest =>
    match t.id with
    | none => open_trades_loop s currentIds otsVar rest
    | some tid =>
      if tid ∈ s.session_trade_ids then
        -- belongs via recorded id; `open_time_str` keeps its previous value
        let cur2 := set_insert currentIds tid
        match otsVar with
        | some (.good ot) =>
            let tr : Trade :=
              ⟨tid, t.instrument, ot, none, t.price, none,
               t.currentUnits, t.unrealizedPL⟩
            open_trades_loop
              { s with open_trades := dict_insert s.open_trades tid tr }
              cur2 otsVar rest
        | _ => .error s
      else
        match s.start_time with
        | some st0 =>
          if t.instrument == s.instrument then
            let ots2 := some t.openTime
            match t.openTime with
            | .good ot =>
              if st0 ≤ ot then
                let s2 := { s with session_trade_ids :=
                             set_insert s.session_trade_ids tid }
                let cur2 := set_insert currentIds tid
                let tr : Trade :=
                  ⟨tid, t.instrument, ot, none, t.price, none,
                   t.currentUnits, t.unrealizedPL⟩
                open_trades_loop
                  { s2 with open_trades := dict_insert s2.open_trades tid tr }
                  cur2 ots2 rest
              else open_trades_loop s currentIds ots2 rest
            | _ => open_trades_loop s currentIds ots2 rest
          else open_trades_loop s currentIds otsVar rest
        | none => open_trades_loop s currentIds otsVar rest

/-- Bounded closed-trade history: `closed_trades[-MAX_CLOSED_TRADES:]` when the
cap is exceeded. -/
def evict_closed (l : List Trade) : List Trade :=
  if maxClosedTrades < l.length then l.drop (l.length - maxClosedTrades) else l

/-- Decision for one transaction of the closed-trade replay (lines 772-823):
`some t` is the closed `Trade` to append (its `realized_pl` is the
transaction's `pl`), `none` means the transaction is skipped — not a
`TRADE_CLOSE`, no or unattributed trade id, already closed, still open, or a
timestamp failed to parse (the per-trade `except` at lines 832-833). -/
def tx_close_entry? (allTxs : List BrokerTransaction)
    (prevOpen : List (String × Trade)) (prevIds currentIds : List String)
    (sessionTradeIds existingClosed : List String) (sInstrument : String)
    (tx : BrokerTransaction) : Option Trade :=
  match tx.tradeID with
  | none => none
  | some tid =>
    if tx.txType == "TRADE_CLOSE" then
      if tid ∈ sessionTradeIds then
        if tid ∈ existingClosed ∨ tid ∈ currentIds then none
        else
          let instrument := tx.instrument.getD sInstrument
          let pl := tx.pl
          let close_price := tx.price
          let close_time_str := tx.time
          let fill := allTxs.find? (fun otx =>
            otx.tradeID == some tid && otx.txType == "ORDER_FILL" &&
            otx.txId != tx.txId)
          let fromFill : Rat × Rat × TimeStr :=
            match fill with
            | some otx =>
                (otx.price, otx.units,
                 if otx.time == .missing then close_time_str else otx.time)
            | none => (close_price, (0 : Rat), close_time_str)
          let recovered : Rat × Rat × TimeStr :=
            if fromFill.2.1 = 0 ∧ tid ∈ prevIds then
              match dict_find? prevOpen tid with
              | some pt =>
                  (pt.open_price, pt.units, TimeStr.good pt.open_time)
              | none => fromFill
            else fromFill
          match recovered.2.2.parse?, close_time_str.parse? with
          | some ot, some ct =>
            let u := if recovered.2.1 ≠ 0 then recovered.2.1 else tx.units
            some ⟨tid, instrument, ot, some ct, recovered.1,
                  some close_price, u, pl⟩
          | _, _ => none
      else none
    else none

/-- Closed-trade replay loop over one transaction page (lines 772-833):
each `TRADE_CLOSE` accepted by `tx_close_entry?` is appended to the bounded
closed-trade history and bumps the win/loss counter matching the sign of its
realized P&L. -/
def process_tx (allTxs : List BrokerTransaction)
    (prevOpen : List (String × Trade)) (prevIds currentIds : List String)
    (sessionTradeIds existingClosed : List String) (sInstrument : String) :
    PaperTradingSession → List BrokerTransaction → PaperTradingSession
  | s, [] => s
  | s, tx :: rest =>
    match tx_close_entry? allTxs prevOpen prevIds currentIds sessionTradeIds
        existingClosed sInstrument tx with
    | none => process_tx allTxs prevOpen prevIds currentIds sessionTradeIds
        existingClosed sInstrument s rest
    | some ct =>
      let s2 :=
        { s with
            closed_trades := evict_closed (s.closed_trades ++ [ct]),
            winning_trades :=
              if 0 < ct.realized_pl then s.winning_trades + 1
              else s.winning_trades,
            losing_trades :=
              if ct.realized_pl < 0 then s.losing_trades + 1
              else s.losing_trades }
      process_tx allTxs prevOpen prevIds currentIds sessionTradeIds
        existingClosed sInstrument s2 rest

/-- Update of `session.last_transaction_time` from the last page entry
(`transactions[-1].get("time", previous)`). -/
def last_tx_time_update (old : Option TimeStr)
    (txs : List BrokerTransaction) : Option TimeStr :=
  match txs.getLast? with
  | none => old
  | some tx => if tx.time == .missing then old else some tx.time

/-- Winning-trade recount (`realized_pl > 0`) over the closed list. -/
def count_winning (l : List Trade) : Nat :=
  l.countP (fun t => decide (0 < t.realized_pl))

/-- Losing-trade recount (`realized_pl < 0`) over the closed list. -/
def count_losing (l : List Trade) : Nat :=
  l.countP (fun t => decide (t.realized_pl < 0))

/-- Final recomputation block of `_update_account_metrics` (lines 839-852):
win/loss counters are rewritten from the closed list when it is non-empty and
they disagree, and `total_trades` is always recomputed. -/
def final_recompute (s : PaperTradingSession) : PaperTradingSession :=
  let aw := count_winning s.closed_trades
  let al := count_losing s.closed_trades
  let s1 :=
    if 0 < s.closed_trades.length then
      if s.winning_trades ≠ aw ∨ s.losing_trades ≠ al then
        { s with winning_trades := aw, losing_trades := al }
      else s
    else s
  { s1 with total_trades := s1.closed_trades.length + s1.open_trades.length }

/-- Closure detection and transaction-sync tail of `_update_account_metrics`
(lines 748-852): fetch the page when a closure was just detected or the sync
cursor is due, replay `TRADE_CLOSE` transactions, advance the sync cursor in
the `finally`, then run the final recomputation. -/
def finish_metrics (s : PaperTradingSession)
    (prevOpen : List (String × Trade)) (prevIds currentIds : List String)
    (now : Rat) (txFetch : Except String (List BrokerTransaction)) :
    PaperTradingSession :=
  let newlyClosed := prevIds.filter (fun i => ¬ i ∈ currentIds)
  let shouldFetch := s.start_time.isSome &&
    (!newlyClosed.isEmpty || decide (s.next_transaction_sync ≤ now))
  let s2 :=
    if shouldFetch then
      match txFetch with
      | .error _ =>
          { s with next_transaction_sync := now + transactionRefreshSeconds }
      | .ok txs =>
        let s3 := { s with last_transaction_time :=
                      last_tx_time_update s.last_transaction_time txs }
        let existingClosed := s3.closed_trades.map (·.id)
        let s4 := process_tx txs prevOpen prevIds currentIds
          s3.session_trade_ids existingClosed s3.instrument s3 txs
        { s4 with next_transaction_sync := now + transactionRefreshSeconds }
    else s
  final_recompute s2

/-- Result of one `_update_account_metrics` call: the session as left behind
and whether the pass ran to completion (`false` means an exception landed in
the handler at line 874, leaving partially updated state). -/
structure MetricsResult where
  session : PaperTradingSession
  completed : Bool
deriving DecidableEq, Repr

/-- Open-trade and transaction phase of `_update_account_metrics`
(lines 698-852), entered once balances and positions are refreshed: snapshot
the previous open trades, clear and rebuild the open-trade dict, then run the
closure sync and the final recomputation.  An exception escaping the rebuild
loop aborts the pass with the state mutated so far. -/
def metrics_open_phase (s2 : PaperTradingSession)
    (trades : List BrokerTrade) (now : Rat)
    (txFetch : Except String (List BrokerTransaction)) : MetricsResult :=
  let prevOpen := s2.open_trades
  let prevIds := prevOpen.map (·.1)
  let s3 := { s2 with open_trades := [] }
  match open_trades_loop s3 [] none trades with
  | .error sAbort => ⟨sAbort, false⟩
  | .ok (s4, currentIds) =>
      ⟨finish_metrics s4 prevOpen prevIds currentIds now txFetch, true⟩

/-- Mirrors `PaperTradingEngine._update_account_metrics`: the four broker
interactions are inputs; a failure of the summary, positions or open-trades
query — or a `NameError`/`ValueError` escaping the open-trades loop — aborts
the pass with the state mutated so far, while a failing transaction fetch is
contained. -/
def update_account_metrics (s : PaperTradingSession) (now : Rat)
    (summary : Except String AccountSummary)
    (positionsFetch : Except String (List BrokerPosRaw))
    (tradesFetch : Except String (List BrokerTrade))
    (txFetch : Except String (List BrokerTransaction)) : MetricsResult :=
  match summary with
  | .error _ => ⟨s, false⟩
  | .ok a =>
    let s1 := apply_summary s a
    match positionsFetch with
    | .error _ => ⟨s1, false⟩
    | .ok ps =>
      let s2 := { s1 with positions := rebuild_positions ps }
      match tradesFetch with
      | .error _ => ⟨s2, false⟩
      | .ok trades => metrics_open_phase s2 trades now txFetch

/-- A backtest trade record (`backtest/engine.py`, dataclass `Trade`). -/
structure BTTrade where
  entry_ts : Rat
  exit_ts : Rat
  entry_px : Rat
  exit_px : Rat
  pnl : Rat
deriving DecidableEq, Repr

/-- Mutable state of the `run_backtest` loop: accumulated equity, the equity
curve as `(ts, equity)` points, recorded trades, current exposure and entry
price, per-bar returns and the drawdown trackers. -/
structure BTState where
  equity : Rat
  curve : List (Rat × Rat)
  trades : List BTTrade
  pos : Rat
  entryPx : Option Rat
  rets : List Rat
  peak : Rat
  maxDd : Rat
deriving DecidableEq, Repr

/-- Fill realization of one `run_backtest` iteration (lines 47-59): on a
target change, close the prior exposure (recording a trade net of fees) and
open the new one.  Returns the updated `(equity, trades, entry_px)`. -/
def bt_exec (notional slippage feeBps : Rat) (st : BTState)
    (prevTs : Option Rat) (bar : Bar) (target : Rat) :
    Rat × List BTTrade × Option Rat :=
  let px := bar.c * (1 + slippage * (if st.pos < target then 1 else -1))
  if target ≠ st.pos then
    let closed :=
      match st.entryPx with
      | some e =>
        if st.pos ≠ 0 then
          let pnl := (px - e) * st.pos * notional
          let fee := |st.pos| * notional * feeBps * (1 / 10000) * px
          let tr : BTTrade := ⟨prevTs.getD bar.ts, bar.ts, e, px, pnl - fee⟩
          (st.equity + pnl - fee, st.trades ++ [tr], (none : Option Rat))
        else (st.equity, st.trades, st.entryPx)
      | none => (st.equity, st.trades, st.entryPx)
    (closed.1, closed.2.1, if target ≠ 0 then some px else closed.2.2)
  else (st.equity, st.trades, st.entryPx)

/-- Mark-to-market of the open exposure at a close price (lines 61-63). -/
def bt_mtm (pos : Rat) (entryPx : Option Rat) (closePx notional : Rat) : Rat :=
  match entryPx with
  | some e => if pos ≠ 0 then (closePx - e) * pos * notional else 0
  | none => 0

/-- Per-bar return accumulation (lines 66-70): uses the previous curve point
when one exists and its equity is non-zero. -/
def bt_rets (st : BTState) (newEq : Rat) : List Rat :=
  match st.curve.getLast? with
  | none => st.rets
  | some prev =>
      if prev.2 ≠ 0 then st.rets ++ [(newEq - prev.2) / |prev.2|] else st.rets

/-- One iteration of the `run_backtest` loop.  The strategy is abstracted as a
state-transition function `onBar` with a position projection `posOf`
(modelling `strategy.on_bar(bar, ctx)` followed by reading `ctx.position`);
`prevTs` carries the previous bar's timestamp for the trade entry stamp. -/
def bt_step {σ : Type} (notional slippage feeBps : Rat) (onBar : σ → Bar → σ)
    (posOf : σ → Rat) (acc : σ × BTState × Option Rat) (bar : Bar) :
    σ × BTState × Option Rat :=
  let sst := onBar acc.1 bar
  let target := posOf sst
  let core := bt_exec notional slippage feeBps acc.2.1 acc.2.2 bar target
  let newEq := core.1 + bt_mtm target core.2.2 bar.c notional
  let newPeak := max acc.2.1.peak newEq
  ⟨sst,
   { equity := core.1,
     curve := acc.2.1.curve ++ [(bar.ts, newEq)],
     trades := core.2.1,
     pos := target,
     entryPx := core.2.2,
     rets := bt_rets acc.2.1 newEq,
     peak := newPeak,
     maxDd := min acc.2.1.maxDd (newEq - newPeak) },
   some bar.ts⟩

/-- Mirrors `run_backtest` of `backend/backtest/engine.py` up to the summary
statistics (the claims under verification concern the equity curve, the trade
list and the open exposure; the Sharpe/drawdown summary derives from these). -/
def run_backtest {σ : Type} (bars : List Bar) (sinit : σ)
    (onBar : σ → Bar → σ) (posOf : σ → Rat)
    (notional slippage feeBps initialEquity : Rat) :
    σ × BTState × Option Rat :=
  bars.foldl (bt_step notional slippage feeBps onBar posOf)
    ⟨sinit, ⟨initialEquity, [], [], 0, none, [], initialEquity, 0⟩, none⟩

/-- Sum of recorded trade profits in a backtest. -/
def bt_pnl_sum (trades : List BTTrade) : Rat :=
  (trades.map (·.pnl)).sum

/-- A concrete session used as input for witnesses and counterexamples. -/
def sampleSession : PaperTradingSession :=
  { session_id := "s1", account_id := "A", strategy_name := "donchian",
    instrument := "EUR_USD", granularity := "M1" }

/-- C7: starting a session whose status is already `RUNNING` is a no-op —
`start_session` returns immediately, spawns no task, raises nothing, writes no
status, and leaves every field of the session unchanged. -/
theorem start_session_running_noop (s : PaperTradingSession) (now : Rat)
    (nowDt : Int) (clientExists : Bool) (clientCreate : Except String Unit)
    (balanceFetch : Except String Rat) (spawnFail : Option String)
    (h : s.status = .running) :
    start_session s now nowDt clientExists clientCreate balanceFetch
      spawnFail = ⟨s, false, none, []⟩ := by
  simp [start_session, h]

/-- Witness for `start_session_running_noop` at a concrete running session. -/
theorem start_session_running_noop_witness :
    start_session { sampleSession with status := .running } 0 0 true
      (Except.ok ()) (Except.ok 100) none =
      ⟨{ sampleSession with status := .running }, false, none, []⟩ :=
  start_session_running_noop _ 0 0 true (Except.ok ()) (Except.ok 100) none
    rfl

/-- C4 counterexample: when the initial balance fetch fails, `start_session`
does record the failure in `error_message` and still spawns the loop task, but
the `ERROR` status written by the handler is overwritten with `RUNNING` at the
end of `start_session`, so the status visible to the caller after start
returns is `RUNNING`, not `ERROR`. -/
theorem start_session_error_status_counterexample :
    (start_session sampleSession 0 0 true (Except.ok ())
        (Except.error "boom") none).session.error_message =
      some "Failed to get account balance: boom" ∧
    (start_session sampleSession 0 0 true (Except.ok ())
        (Except.error "boom") none).taskSpawned = true ∧
    (start_session sampleSession 0 0 true (Except.ok ())
        (Except.error "boom") none).session.status = .running ∧
    (start_session sampleSession 0 0 true (Except.ok ())
        (Except.error "boom") none).session.status ≠ .error := by
  decide

/-- C4 (amended): when the initial account-balance fetch inside
`start_session` fails, start is not aborted — the failure is recorded in
`error_message`, the status is transiently set to `ERROR`, and the
trading-loop task is still spawned; but the final status visible to the
caller after start returns is `RUNNING` (the unconditional assignment at the
end of `start_session` overwrites the `ERROR`). -/
theorem start_session_balance_failure_amended (s : PaperTradingSession)
    (now : Rat) (nowDt : Int) (e : String) (h : s.status ≠ .running) :
    (start_session s now nowDt true (Except.ok ()) (Except.error e)
        none).session.error_message =
      some ("Failed to get account balance: " ++ e) ∧
    (start_session s now nowDt true (Except.ok ()) (Except.error e)
        none).taskSpawned = true ∧
    TradingStatus.error ∈ (start_session s now nowDt true (Except.ok ())
        (Except.error e) none).statusWrites ∧
    (start_session s now nowDt true (Except.ok ()) (Except.error e)
        none).session.status = .running := by
  simp [start_session, h]

/-- Witness for `start_session_balance_failure_amended` at a concrete stopped
session. -/
theorem start_session_balance_failure_witness :
    (start_session sampleSession 0 0 true (Except.ok ())
        (Except.error "boom") none).session.error_message =
      some ("Failed to get account balance: " ++ "boom") ∧
    (start_session sampleSession 0 0 true (Except.ok ())
        (Except.error "boom") none).taskSpawned = true ∧
    TradingStatus.error ∈ (start_session sampleSession 0 0 true (Except.ok ())
        (Except.error "boom") none).statusWrites ∧
    (start_session sampleSession 0 0 true (Except.ok ())
        (Except.error "boom") none).session.status = .running :=
  start_session_balance_failure_amended sampleSession 0 0 "boom" (by decide)

/-- C10: deleting a session whose status is `PAUSED` or `ERROR` removes it
from the registry and releases its client, but does not stop it first: no
broker command is issued and the `running_tasks` map is left untouched (the
entry for its background task, if any, stays). -/
theorem delete_session_nonrunning_frame (st : EngineState) (sid : String)
    (s : PaperTradingSession)
    (posFetch : Except String (List BrokerPosRaw))
    (hfind : st.sessions.find? (fun t => t.session_id == sid) = some s)
    (hst : s.status = .paused ∨ s.status = .error) :
    (delete_session st sid posFetch).1.runningTasks = st.runningTasks ∧
    (delete_session st sid posFetch).2 = [] ∧
    (delete_session st sid posFetch).1.sessions =
      st.sessions.filter (fun t => t.session_id != sid) ∧
    (delete_session st sid posFetch).1.clients =
      st.clients.filter (fun k => k != sid) := by
  have hne : (s.status == TradingStatus.running) = false := by
    rcases hst with h | h <;> simp [h]
  simp [delete_session, hfind, hne]

/-- Sample paused engine state for the C10 witness: the paused session still
has a live task entry. -/
def pausedEngine : EngineState :=
  { sessions := [{ sampleSession with status := .paused }],
    runningTasks := ["s1"], clients := ["s1"] }

/-- Witness for `delete_session_nonrunning_frame`: deleting the paused session
keeps its task entry and issues no broker command. -/
theorem delete_session_nonrunning_frame_witness :
    (delete_session pausedEngine "s1" (Except.ok [])).1.runningTasks =
      pausedEngine.runningTasks ∧
    (delete_session pausedEngine "s1" (Except.ok [])).2 = [] ∧
    (delete_session pausedEngine "s1" (Except.ok [])).1.sessions =
      pausedEngine.sessions.filter (fun t => t.session_id != "s1") ∧
    (delete_session pausedEngine "s1" (Except.ok [])).1.clients =
      pausedEngine.clients.filter (fun k => k != "s1") :=
  delete_session_nonrunning_frame pausedEngine "s1"
    { sampleSession with status := .paused } (Except.ok []) (by decide)
    (Or.inl rfl)

/-- Concrete bar for the C5 counterexample and witness. -/
def c5Bar : Bar := ⟨100, 1, 1, 1, 2⟩

/-- C5 counterexample: in an iteration where the strategy's target differs
from the previous position, an exception raised by the quote call does not
fall back to the bar's close — it lands in the `except` handler, the position
change is not executed, and the already-advanced `last_bar_time` means the bar
is never reprocessed. -/
theorem quote_error_skips_execution_counterexample :
    (fun _ => (1 : Rat)) c5Bar ≠ (0 : Rat) ∧
    (candle_step sampleSession 0 10 5 0 0 (Except.ok [c5Bar])
        (fun _ => (1 : Rat)) (Except.error "down") (Except.ok {}) 0).executed
      = false ∧
    (candle_step sampleSession 0 10 5 0 0 (Except.ok [c5Bar])
        (fun _ => (1 : Rat)) (Except.error "down") (Except.ok {}) 0).execPrice
      = none ∧
    (candle_step sampleSession 0 10 5 0 0 (Except.ok [c5Bar])
        (fun _ => (1 : Rat)) (Except.error "down") (Except.ok {}) 0).lastBarTime
      = c5Bar.ts := by
  decide

/-- C5 (amended): when the target position differs from the previous one the
loop fetches a current quote; if the quote call returns successfully the
position change is executed — at the quoted `closeoutBid` when the price list
is non-empty, at the bar's close as a fallback when it is empty.  If the quote
call raises, the position change is not executed for that bar (the error is
handled by backing off the poll cursor). -/
theorem candle_quote_fallback_amended (s : PaperTradingSession)
    (now barPollInterval minBarPoll lastBarTime oldPos : Rat)
    (bars : List Bar) (b : Bar) (targetOf : Bar → Rat)
    (orderResult : Except String OrderFill) (nowDt : Int)
    (hlast : bars.getLast? = some b) (hnew : lastBarTime < b.ts)
    (hchange : oldPos ≠ targetOf b) :
    ((candle_step s now barPollInterval minBarPoll lastBarTime oldPos
        (Except.ok bars) targetOf (Except.ok none) orderResult nowDt).executed
          = true ∧
     (candle_step s now barPollInterval minBarPoll lastBarTime oldPos
        (Except.ok bars) targetOf (Except.ok none) orderResult nowDt).execPrice
          = some b.c) ∧
    (∀ p : Rat,
      (candle_step s now barPollInterval minBarPoll lastBarTime oldPos
        (Except.ok bars) targetOf (Except.ok (some p)) orderResult
          nowDt).executed = true ∧
      (candle_step s now barPollInterval minBarPoll lastBarTime oldPos
        (Except.ok bars) targetOf (Except.ok (some p)) orderResult
          nowDt).execPrice = some p) ∧
    (∀ e : String,
      (candle_step s now barPollInterval minBarPoll lastBarTime oldPos
        (Except.ok bars) targetOf (Except.error e) orderResult
          nowDt).executed = false) := by
  have hle : ¬ b.ts ≤ lastBarTime := not_le.mpr hnew
  refine ⟨?_, ?_, ?_⟩ <;>
    simp [candle_step, hlast, hle, hchange]

/-- Witness for `candle_quote_fallback_amended` at a concrete bar and
strategy target. -/
theorem candle_quote_fallback_witness :
    ((candle_step sampleSession 0 10 5 0 0 (Except.ok [c5Bar])
        (fun _ => (1 : Rat)) (Except.ok none) (Except.ok {}) 0).executed
          = true ∧
     (candle_step sampleSession 0 10 5 0 0 (Except.ok [c5Bar])
        (fun _ => (1 : Rat)) (Except.ok none) (Except.ok {}) 0).execPrice
          = some c5Bar.c) ∧
    (∀ p : Rat,
      (candle_step sampleSession 0 10 5 0 0 (Except.ok [c5Bar])
        (fun _ => (1 : Rat)) (Except.ok (some p)) (Except.ok {}) 0).executed
          = true ∧
      (candle_step sampleSession 0 10 5 0 0 (Except.ok [c5Bar])
        (fun _ => (1 : Rat)) (Except.ok (some p)) (Except.ok {}) 0).execPrice
          = some p) ∧
    (∀ e : String,
      (candle_step sampleSession 0 10 5 0 0 (Except.ok [c5Bar])
        (fun _ => (1 : Rat)) (Except.error e) (Except.ok {}) 0).executed
          = false) :=
  candle_quote_fallback_amended sampleSession 0 10 5 0 0 [c5Bar] c5Bar
    (fun _ => (1 : Rat)) (Except.ok {}) 0 rfl (by decide) (by decide)

/-- In the co-resident branch of the flatten logic, every order issued is a
market order on the session's own instrument whose size is bounded both by
the session's own tracked units and by the broker's net position. -/
theorem stop_flatten_others_bound (s : PaperTradingSession)
    (posFetch : Except String (List BrokerPosRaw)) :
    ∀ c ∈ (stop_flatten s true posFetch).2,
      ∃ ps : List BrokerPosRaw, posFetch = .ok ps ∧
      ∃ p ∈ ps, p.instrument = s.instrument ∧
      ∃ u, c = .marketOrder s.instrument u s.account_id ∧
        |u| ≤ |s.session_position_units| ∧
        |u| ≤ |p.longUnits - p.shortUnits| := by
  intro c hc
  by_cases hspu : 0 < |s.session_position_units|
  case neg =>
    rcases posFetch with e | ps <;> simp [stop_flatten, hspu] at hc
  case pos =>
  rcases posFetch with e | ps
  · simp [stop_flatten, hspu] at hc
  rcases hfind : ps.find? (fun p => p.instrument == s.instrument) with _ | p
  · simp [stop_flatten, hspu, hfind] at hc
  have hpmem : p ∈ ps := List.mem_of_find?_eq_some hfind
  have hpins : p.instrument = s.instrument := by
    have h2 := List.find?_some hfind
    simpa using h2
  refine ⟨ps, rfl, p, hpmem, hpins, ?_⟩
  by_cases hpos : 0 < s.session_position_units
  · by_cases hnet : 0 < p.longUnits - p.shortUnits
    · have hcu : 0 < min s.session_position_units
          (p.longUnits - p.shortUnits) := lt_min hpos hnet
      simp [stop_flatten, hspu, hfind, hpos, hnet, hcu] at hc
      subst hc
      refine ⟨-(min s.session_position_units
        (p.longUnits - p.shortUnits)), rfl, ?_, ?_⟩
      · rw [abs_neg, abs_of_pos hcu, abs_of_pos hpos]
        exact min_le_left _ _
      · rw [abs_neg, abs_of_pos hcu, abs_of_pos hnet]
        exact min_le_right _ _
    · simp [stop_flatten, hspu, hfind, hpos, hnet] at hc
  · by_cases hneg : s.session_position_units < 0
    · by_cases hnet : p.longUnits - p.shortUnits < 0
      · have hcu : max s.session_position_units
            (p.longUnits - p.shortUnits) < 0 := max_lt hneg hnet
        simp [stop_flatten, hspu, hfind, hpos, hneg, hnet, hcu] at hc
        subst hc
        refine ⟨|max s.session_position_units
          (p.longUnits - p.shortUnits)|, rfl, ?_, ?_⟩
        · rw [abs_abs, abs_of_neg hcu, abs_of_neg hneg]
          exact neg_le_neg (le_max_left _ _)
        · rw [abs_abs, abs_of_neg hcu, abs_of_neg hnet]
          exact neg_le_neg (le_max_right _ _)
      · simp [stop_flatten, hspu, hfind, hpos, hneg, hnet] at hc
    · simp [stop_flatten, hspu, hfind, hpos, hneg] at hc

/-- C2: stopping a session while at least one other `RUNNING` session shares
its account and instrument never orders more units closed than the session's
own `session_position_units` in absolute value, and never more than the
broker's current net position on the matching side. -/
theorem stop_session_coresident_close_bound (st : EngineState) (sid : String)
    (s : PaperTradingSession) (posFetch : Except String (List BrokerPosRaw))
    (st2 : EngineState) (cmds : List BrokerCommand)
    (hfind : st.sessions.find? (fun t => t.session_id == sid) = some s)
    (hco : has_coresident st.sessions { s with status := .stopping } = true)
    (hstop : stop_session st sid posFetch = .ok (st2, cmds)) :
    ∀ c ∈ cmds, ∃ ps : List BrokerPosRaw, posFetch = .ok ps ∧
      ∃ p ∈ ps, p.instrument = s.instrument ∧
      ∃ u, c = .marketOrder s.instrument u s.account_id ∧
        |u| ≤ |s.session_position_units| ∧
        |u| ≤ |p.longUnits - p.shortUnits| := by
  unfold stop_session at hstop
  rw [hfind] at hstop
  simp only [Except.ok.injEq] at hstop
  have hc2 : cmds = (stop_session_apply st sid s posFetch).2 := by
    rw [hstop]
  intro c hcm
  rw [hc2] at hcm
  have hcm2 : c ∈ (stop_flatten { s with status := .stopping }
      (has_coresident st.sessions { s with status := .stopping })
      posFetch).2 := hcm
  rw [hco] at hcm2
  exact stop_flatten_others_bound { s with status := .stopping } posFetch c
    hcm2

/-- Stopping session used by the C2 witness. -/
def c2SessA : PaperTradingSession :=
  { sampleSession with status := .running, session_position_units := 10000 }

/-- Co-resident running session on the same account and instrument. -/
def c2SessB : PaperTradingSession :=
  { sampleSession with
      session_id := "s2", status := .running,
      session_position_units := 10000 }

/-- Engine with both sessions registered, used by the C2 witness. -/
def c2Engine : EngineState :=
  ⟨[c2SessA, c2SessB], ["s1", "s2"], ["s1", "s2"]⟩

/-- Broker net position covering both sessions, used by the C2 witness. -/
def c2Pos : BrokerPosRaw := ⟨"EUR_USD", 20000, 0, 0, 0, 0⟩

/-- Witness for `stop_session_coresident_close_bound` at a concrete
two-session engine holding a 20000-unit broker position of which the stopping
session owns 10000: the single order issued closes 10000 units, within both
bounds. -/
theorem stop_session_coresident_close_bound_witness :
    |(-10000 : Rat)| ≤ |c2SessA.session_position_units| ∧
    |(-10000 : Rat)| ≤ |c2Pos.longUnits - c2Pos.shortUnits| := by
  have hcmds : (stop_session_apply c2Engine "s1" c2SessA
      (Except.ok [c2Pos])).2 =
      [BrokerCommand.marketOrder "EUR_USD" (-10000) "A"] := by
    norm_num [stop_session_apply, stop_flatten, has_coresident, c2Engine,
      c2SessA, c2SessB, c2Pos, sampleSession, min_def]
    decide
  have h := stop_session_coresident_close_bound c2Engine "s1" c2SessA
    (Except.ok [c2Pos])
    (stop_session_apply c2Engine "s1" c2SessA (Except.ok [c2Pos])).1
    (stop_session_apply c2Engine "s1" c2SessA (Except.ok [c2Pos])).2
    (by decide) (by decide) rfl
  obtain ⟨ps, hps, p, hp, hpi, u, hu, h1, h2⟩ :=
    h (BrokerCommand.marketOrder "EUR_USD" (-10000) "A")
      (by rw [hcmds]; exact List.mem_singleton_self _)
  simp only [Except.ok.injEq] at hps
  subst hps
  rw [List.mem_singleton] at hp
  subst hp
  simp only [BrokerCommand.marketOrder.injEq] at hu
  obtain ⟨-, hu2, -⟩ := hu
  subst hu2
  exact ⟨h1, h2⟩

/-- The final-recomputation block always leaves `total_trades` equal to the
closed-trade count plus the open-trade count. -/
theorem final_recompute_total (s : PaperTradingSession) :
    (final_recompute s).total_trades =
      (final_recompute s).closed_trades.length +
      (final_recompute s).open_trades.length := rfl

/-- A completing open-trade phase ends with the final recomputation, so its
`total_trades` matches the rebuilt closed and open counts. -/
theorem metrics_open_phase_total (s2 : PaperTradingSession)
    (trades : List BrokerTrade) (now : Rat)
    (xf : Except String (List BrokerTransaction)) (r : PaperTradingSession)
    (h : metrics_open_phase s2 trades now xf = ⟨r, true⟩) :
    r.total_trades = r.closed_trades.length + r.open_trades.length := by
  unfold metrics_open_phase at h
  simp only [] at h
  split at h
  · simp at h
  · simp only [MetricsResult.mk.injEq, and_true] at h
    rw [← h]
    exact final_recompute_total _

/-- C1: after any reconciliation pass that runs to completion,
`total_trades` equals `len(closed_trades) + len(open_trades)`. -/
theorem update_metrics_total_trades (s : PaperTradingSession) (now : Rat)
    (su : Except String AccountSummary)
    (pf : Except String (List BrokerPosRaw))
    (tf : Except String (List BrokerTrade))
    (xf : Except String (List BrokerTransaction)) (r : PaperTradingSession)
    (h : update_account_metrics s now su pf tf xf = ⟨r, true⟩) :
    r.total_trades = r.closed_trades.length + r.open_trades.length := by
  unfold update_account_metrics at h
  split at h
  · simp at h
  · split at h
    · simp at h
    · split at h
      · simp at h
      · exact metrics_open_phase_total _ _ _ _ _ h

/-- Session and broker inputs of a completing pass, used by the C1 and C6
witnesses. -/
def c1Session : PaperTradingSession :=
  { sampleSession with
      status := .running, start_time := some 0,
      initial_balance := 100 }

/-- Account summary handed to the witness passes. -/
def c1Summary : AccountSummary := ⟨100, 100, 0, 0, 100⟩

/-- Witness for `update_metrics_total_trades`: a pass over empty broker data
completes and establishes the invariant. -/
theorem update_metrics_total_trades_witness :
    (update_account_metrics c1Session 0 (Except.ok c1Summary) (Except.ok [])
        (Except.ok []) (Except.ok [])).session.total_trades =
      (update_account_metrics c1Session 0 (Except.ok c1Summary)
        (Except.ok []) (Except.ok []) (Except.ok [])).session.closed_trades.length +
      (update_account_metrics c1Session 0 (Except.ok c1Summary)
        (Except.ok []) (Except.ok []) (Except.ok [])).session.open_trades.length :=
  update_metrics_total_trades c1Session 0 (Except.ok c1Summary)
    (Except.ok []) (Except.ok []) (Except.ok []) _ rfl

/-- Session for the C3 failing input: its own order fill already recorded
trade id 42 in the attribution set, as `_execute_position_change` does. -/
def c3Session : PaperTradingSession :=
  { sampleSession with
      status := .running, start_time := some 0,
      session_trade_ids := ["42"] }

/-- The broker's open-trade listing for the C3 failing input: a single trade
whose broker id 42 is already in the session's attribution set. -/
def c3Trade : BrokerTrade := ⟨some "42", "EUR_USD", .good 5, 1, 10000, 0⟩

/-- C3 failing-input evaluation: a broker open trade whose id is already in
`session_trade_ids`, listed first, makes the attribution loop read the local
`open_time_str` before any assignment (it is only assigned inside the
instrument/start-time fallback branch), raising `NameError` at line 740.  The
pass aborts and the trade is NOT kept in `open_trades`, refuting the
"attributed if its ID is already in the attribution set" direction of the
claim; the source comments at lines 714-716 state the claimed rule as the
intent, so this is a code bug. -/
theorem open_trades_attribution_name_error :
    "42" ∈ c3Session.session_trade_ids ∧
    (update_account_metrics c3Session 0 (Except.ok c1Summary) (Except.ok [])
        (Except.ok [c3Trade]) (Except.ok [])).completed = false ∧
    (update_account_metrics c3Session 0 (Except.ok c1Summary) (Except.ok [])
        (Except.ok [c3Trade]) (Except.ok [])).session.open_trades = [] := by
  decide

/-- A trade list kept under the closed-trade cap stays non-empty after
eviction. -/
theorem evict_closed_ne_nil (l : List Trade) (h : l ≠ []) :
    evict_closed l ≠ [] := by
  unfold evict_closed
  split
  case isTrue hgt =>
    intro hnil
    have hlen := congrArg List.length hnil
    rw [List.length_drop] at hlen
    simp only [List.length_nil] at hlen
    simp only [maxClosedTrades] at hgt hlen
    omega
  case isFalse => exact h

/-- The transaction replay can only grow the closed-trade list: if the list
comes out empty it was empty going in and the win/loss counters are
untouched. -/
theorem process_tx_closed_empty (A : List BrokerTransaction)
    (P : List (String × Trade)) (PI CI STI EC : List String) (SI : String)
    (txs : List BrokerTransaction) : ∀ s : PaperTradingSession,
    (process_tx A P PI CI STI EC SI s txs).closed_trades = [] →
    (process_tx A P PI CI STI EC SI s txs).closed_trades = s.closed_trades ∧
    (process_tx A P PI CI STI EC SI s txs).winning_trades =
      s.winning_trades ∧
    (process_tx A P PI CI STI EC SI s txs).losing_trades =
      s.losing_trades := by
  induction txs with
  | nil => intro s h; exact ⟨rfl, rfl, rfl⟩
  | cons tx rest ih =>
    intro s h
    rw [process_tx] at h ⊢
    cases hce : tx_close_entry? A P PI CI STI EC SI tx with
    | none =>
      simp only [hce] at h ⊢
      exact ih s h
    | some ct =>
      simp only [hce] at h ⊢
      have h2 := ih _ h
      exfalso
      have hne : evict_closed (s.closed_trades ++ [ct]) ≠ [] :=
        evict_closed_ne_nil _ (by simp)
      rw [h] at h2
      exact hne h2.1.symm

/-- The final recomputation never changes the closed-trade list. -/
theorem final_recompute_closed (s : PaperTradingSession) :
    (final_recompute s).closed_trades = s.closed_trades := by
  simp only [final_recompute]
  split
  · split <;> rfl
  · rfl

/-- The final recomputation never changes the open-trade map. -/
theorem final_recompute_open (s : PaperTradingSession) :
    (final_recompute s).open_trades = s.open_trades := by
  simp only [final_recompute]
  split
  · split <;> rfl
  · rfl

/-- With a non-empty closed list, the final recomputation leaves the win/loss
counters equal to the recounted values. -/
theorem final_recompute_counts (s : PaperTradingSession)
    (h : s.closed_trades ≠ []) :
    (final_recompute s).winning_trades = count_winning s.closed_trades ∧
    (final_recompute s).losing_trades = count_losing s.closed_trades := by
  have hlen : 0 < s.closed_trades.length := List.length_pos.mpr h
  simp only [final_recompute]
  rw [if_pos hlen]
  split
  · exact ⟨rfl, rfl⟩
  case isFalse hmm =>
    push_neg at hmm
    exact ⟨hmm.1, hmm.2⟩

/-- With an empty closed list, the final recomputation leaves the win/loss
counters untouched. -/
theorem final_recompute_counts_empty (s : PaperTradingSession)
    (h : s.closed_trades = []) :
    (final_recompute s).winning_trades = s.winning_trades ∧
    (final_recompute s).losing_trades = s.losing_trades := by
  simp only [final_recompute]
  rw [if_neg (by simp [h])]
  exact ⟨rfl, rfl⟩

/-- Wins and losses recounted over a closed list cannot exceed its length:
a trade's realized P&L cannot be both positive and negative. -/
theorem count_win_lose_le_length (l : List Trade) :
    count_winning l + count_losing l ≤ l.length := by
  induction l with
  | nil => simp [count_winning, count_losing]
  | cons t rest ih =>
    simp only [count_winning, count_losing, List.countP_cons,
      List.length_cons] at ih ⊢
    by_cases h1 : 0 < t.realized_pl
    · have h2 : ¬ t.realized_pl < 0 := asymm h1
      simp [h1, h2]
      omega
    · by_cases h2 : t.realized_pl < 0 <;> simp [h1, h2] <;> omega

/-- Session extracted from either outcome of the open-trades loop: the state
mutated so far on abort, the rebuilt state on success. -/
def except_session :
    Except PaperTradingSession (PaperTradingSession × List String) →
      PaperTradingSession
  | .error s => s
  | .ok (s, _) => s

/-- The open-trades rebuild loop touches only `open_trades` and
`session_trade_ids`: closed trades, win/loss counters and `daily_loss` pass
through unchanged in both the aborting and the completing outcome. -/
theorem open_trades_loop_frame (trades : List BrokerTrade) :
    ∀ (s : PaperTradingSession) (cur : List String) (ots : Option TimeStr),
    (except_session (open_trades_loop s cur ots trades)).closed_trades =
      s.closed_trades ∧
    (except_session (open_trades_loop s cur ots trades)).winning_trades =
      s.winning_trades ∧
    (except_session (open_trades_loop s cur ots trades)).losing_trades =
      s.losing_trades ∧
    (except_session (open_trades_loop s cur ots trades)).daily_loss =
      s.daily_loss := by
  induction trades with
  | nil =>
    intro s cur ots
    exact ⟨rfl, rfl, rfl, rfl⟩
  | cons t rest ih =>
    intro s cur ots
    simp only [open_trades_loop]
    repeat' split
    all_goals first
      | exact ih _ _ _
      | exact ⟨rfl, rfl, rfl, rfl⟩

/-- The transaction replay never touches `daily_loss`. -/
theorem process_tx_daily (A : List BrokerTransaction)
    (P : List (String × Trade)) (PI CI STI EC : List String) (SI : String)
    (txs : List BrokerTransaction) : ∀ s : PaperTradingSession,
    (process_tx A P PI CI STI EC SI s txs).daily_loss = s.daily_loss := by
  induction txs with
  | nil => intro s; rfl
  | cons tx rest ih =>
    intro s
    rw [process_tx]
    cases hce : tx_close_entry? A P PI CI STI EC SI tx with
    | none => simp only [hce]; exact ih s
    | some ct => simp only [hce]; exact ih _

/-- The final recomputation never touches `daily_loss`. -/
theorem final_recompute_daily (s : PaperTradingSession) :
    (final_recompute s).daily_loss = s.daily_loss := by
  simp only [final_recompute]
  split
  · split <;> rfl
  · rfl

/-- The transaction-sync tail of a pass is a final recomputation over a state
that can differ from its input only by appended closed trades, matching
counter bumps and cursor updates: if its closed list is empty, counters and
list are the input's, and `daily_loss` is never touched. -/
theorem finish_metrics_shape (s4 : PaperTradingSession)
    (P : List (String × Trade)) (PI CI : List String) (now : Rat)
    (xf : Except String (List BrokerTransaction)) :
    ∃ s5 : PaperTradingSession,
      finish_metrics s4 P PI CI now xf = final_recompute s5 ∧
      (s5.closed_trades = [] →
        s5.winning_trades = s4.winning_trades ∧
        s5.losing_trades = s4.losing_trades ∧
        s5.closed_trades = s4.closed_trades) ∧
      s5.daily_loss = s4.daily_loss := by
  simp only [finish_metrics]
  split
  · split
    · exact ⟨_, rfl, fun _ => ⟨rfl, rfl, rfl⟩, rfl⟩
    case h_2 txs =>
      refine ⟨_, rfl, ?_, ?_⟩
      · intro h
        have h6 := process_tx_closed_empty txs P PI CI _ _ _ txs _ h
        exact ⟨h6.2.1, h6.2.2, h6.1⟩
      · exact process_tx_daily txs P PI CI _ _ _ txs _
  · exact ⟨s4, rfl, fun _ => ⟨rfl, rfl, rfl⟩, rfl⟩

/-- Shape of the final recomputation used by claim C6: recounted values when
the closed list is non-empty, untouched counters traced back to a reference
state when it is empty. -/
theorem final_recompute_props (s5 s4 : PaperTradingSession)
    (hclosed_empty : s5.closed_trades = [] →
      s5.winning_trades = s4.winning_trades ∧
      s5.losing_trades = s4.losing_trades ∧
      s5.closed_trades = s4.closed_trades) :
    ((final_recompute s5).closed_trades ≠ [] →
      (final_recompute s5).winning_trades =
        count_winning (final_recompute s5).closed_trades ∧
      (final_recompute s5).losing_trades =
        count_losing (final_recompute s5).closed_trades) ∧
    ((final_recompute s5).closed_trades = [] →
      (final_recompute s5).winning_trades = s4.winning_trades ∧
      (final_recompute s5).losing_trades = s4.losing_trades ∧
      s4.closed_trades = []) := by
  constructor
  · intro hne
    rw [final_recompute_closed] at hne
    rw [final_recompute_closed]
    exact final_recompute_counts s5 hne
  · intro he
    rw [final_recompute_closed] at he
    obtain ⟨hw, hl, hc⟩ := hclosed_empty he
    have hk := final_recompute_counts_empty s5 he
    refine ⟨hk.1.trans hw, hk.2.trans hl, ?_⟩
    rw [← hc]
    exact he

/-- Win/loss consistency for a completing open-trade phase over an arbitrary
pre-state satisfying the zero-counters-when-no-closed-trades invariant. -/
theorem metrics_open_phase_wl (s2 : PaperTradingSession)
    (trades : List BrokerTrade) (now : Rat)
    (xf : Except String (List BrokerTransaction)) (r : PaperTradingSession)
    (h : metrics_open_phase s2 trades now xf = ⟨r, true⟩)
    (hpre : s2.closed_trades = [] →
      s2.winning_trades = 0 ∧ s2.losing_trades = 0) :
    r.winning_trades + r.losing_trades ≤ r.closed_trades.length ∧
    (r.closed_trades ≠ [] →
      r.winning_trades = count_winning r.closed_trades ∧
      r.losing_trades = count_losing r.closed_trades) := by
  unfold metrics_open_phase at h
  simp only [] at h
  split at h
  · simp at h
  case h_2 s4 currentIds heq =>
    simp only [MetricsResult.mk.injEq, and_true] at h
    have hframe := open_trades_loop_frame trades
      { s2 with open_trades := [] } [] none
    rw [heq] at hframe
    simp only [except_session] at hframe
    obtain ⟨hS4c, hS4w, hS4l, -⟩ := hframe
    obtain ⟨s5, hsh, hprop, -⟩ := finish_metrics_shape s4 s2.open_trades
      (List.map (fun x => x.1) s2.open_trades) currentIds now xf
    rw [hsh] at h
    have hp := final_recompute_props s5 s4 hprop
    rw [h] at hp
    by_cases hre : r.closed_trades = []
    · obtain ⟨hw, hl, hc4⟩ := hp.2 hre
      rw [hS4c] at hc4
      obtain ⟨hw0, hl0⟩ := hpre hc4
      constructor
      · rw [hw, hS4w, hw0, hl, hS4l, hl0, hre]
        simp
      · intro hne
        exact absurd hre hne
    · have hc := hp.1 hre
      refine ⟨?_, fun _ => hc⟩
      rw [hc.1, hc.2]
      exact count_win_lose_le_length _

/-- C6: after any completing reconciliation pass,
`winning_trades + losing_trades ≤ len(closed_trades)`, and when closed trades
exist both counters equal the count of closed trades with positive/negative
realized P&L.  The pre-state hypothesis (zero counters while no closed trade
is recorded) holds for every engine-created session: counters start at zero
and are only ever bumped together with an append to the closed list. -/
theorem update_metrics_win_loss_consistency (s : PaperTradingSession)
    (now : Rat) (su : Except String AccountSummary)
    (pf : Except String (List BrokerPosRaw))
    (tf : Except String (List BrokerTrade))
    (xf : Except String (List BrokerTransaction)) (r : PaperTradingSession)
    (hpre : s.closed_trades = [] →
      s.winning_trades = 0 ∧ s.losing_trades = 0)
    (h : update_account_metrics s now su pf tf xf = ⟨r, true⟩) :
    r.winning_trades + r.losing_trades ≤ r.closed_trades.length ∧
    (r.closed_trades ≠ [] →
      r.winning_trades = count_winning r.closed_trades ∧
      r.losing_trades = count_losing r.closed_trades) := by
  unfold update_account_metrics at h
  split at h
  · simp at h
  · split at h
    · simp at h
    · split at h
      · simp at h
      · exact metrics_open_phase_wl _ _ _ _ _ h (fun hh => hpre hh)

/-- Witness for `update_metrics_win_loss_consistency` at a completing pass
over empty broker data. -/
theorem update_metrics_win_loss_consistency_witness :
    (update_account_metrics c1Session 0 (Except.ok c1Summary)
        (Except.ok []) (Except.ok []) (Except.ok [])).session.winning_trades +
      (update_account_metrics c1Session 0 (Except.ok c1Summary)
        (Except.ok []) (Except.ok []) (Except.ok [])).session.losing_trades ≤
      (update_account_metrics c1Session 0 (Except.ok c1Summary)
        (Except.ok []) (Except.ok [])
        (Except.ok [])).session.closed_trades.length ∧
    ((update_account_metrics c1Session 0 (Except.ok c1Summary)
        (Except.ok []) (Except.ok []) (Except.ok [])).session.closed_trades ≠
          [] →
      (update_account_metrics c1Session 0 (Except.ok c1Summary)
        (Except.ok []) (Except.ok []) (Except.ok [])).session.winning_trades =
        count_winning (update_account_metrics c1Session 0
          (Except.ok c1Summary) (Except.ok []) (Except.ok [])
          (Except.ok [])).session.closed_trades ∧
      (update_account_metrics c1Session 0 (Except.ok c1Summary)
        (Except.ok []) (Except.ok []) (Except.ok [])).session.losing_trades =
        count_losing (update_account_metrics c1Session 0
          (Except.ok c1Summary) (Except.ok []) (Except.ok [])
          (Except.ok [])).session.closed_trades) :=
  update_metrics_win_loss_consistency c1Session 0 (Except.ok c1Summary)
    (Except.ok []) (Except.ok []) (Except.ok []) _ (fun _ => ⟨rfl, rfl⟩) rfl

/-- Profit sum over an appended trade record. -/
theorem bt_pnl_sum_append (l : List BTTrade) (t : BTTrade) :
    bt_pnl_sum (l ++ [t]) = bt_pnl_sum l + t.pnl := by
  simp [bt_pnl_sum]

/-- Fill realization keeps `equity - sum(trade pnl)` constant: a closed trade
adds `pnl - fee` to equity and records exactly `pnl - fee`. -/
theorem bt_exec_pnl (notional slippage feeBps : Rat) (st : BTState)
    (prevTs : Option Rat) (bar : Bar) (target : Rat) :
    (bt_exec notional slippage feeBps st prevTs bar target).1 -
      bt_pnl_sum (bt_exec notional slippage feeBps st prevTs bar
        target).2.1 =
    st.equity - bt_pnl_sum st.trades := by
  by_cases ht : target = st.pos
  · simp [bt_exec, ht]
  · rcases he : st.entryPx with _ | e
    · simp [bt_exec, ht, he]
    · by_cases hp : st.pos = 0
      · simp [bt_exec, ht, he, hp]
        split <;> simp
      · simp [bt_exec, ht, he, hp, bt_pnl_sum_append]
        ring

/-- The per-bar step appends exactly one curve point carrying the stepped
equity plus the mark-to-market at the bar's close. -/
theorem bt_step_curve {σ : Type} (notional slippage feeBps : Rat)
    (onBar : σ → Bar → σ) (posOf : σ → Rat) (acc : σ × BTState × Option Rat)
    (bar : Bar) :
    (bt_step notional slippage feeBps onBar posOf acc bar).2.1.curve =
      acc.2.1.curve ++ [(bar.ts,
        (bt_step notional slippage feeBps onBar posOf acc bar).2.1.equity +
        bt_mtm (bt_step notional slippage feeBps onBar posOf acc
            bar).2.1.pos
          (bt_step notional slippage feeBps onBar posOf acc bar).2.1.entryPx
          bar.c notional)] := rfl

/-- Folding the backtest step over any bar list preserves
`equity - sum(trade pnl)`. -/
theorem bt_fold_equity {σ : Type} (notional slippage feeBps : Rat)
    (onBar : σ → Bar → σ) (posOf : σ → Rat) (E0 : Rat) (bars : List Bar) :
    ∀ acc : σ × BTState × Option Rat,
      acc.2.1.equity - bt_pnl_sum acc.2.1.trades = E0 →
      (bars.foldl (bt_step notional slippage feeBps onBar posOf)
          acc).2.1.equity -
        bt_pnl_sum ((bars.foldl (bt_step notional slippage feeBps onBar
          posOf) acc).2.1.trades) = E0 := by
  induction bars with
  | nil => intro acc h; exact h
  | cons b rest ih =>
    intro acc h
    rw [List.foldl_cons]
    apply ih
    show (bt_exec notional slippage feeBps acc.2.1 acc.2.2 b
        (posOf (onBar acc.1 b))).1 -
      bt_pnl_sum (bt_exec notional slippage feeBps acc.2.1 acc.2.2 b
        (posOf (onBar acc.1 b))).2.1 = E0
    rw [bt_exec_pnl]
    exact h

/-- Over a non-empty bar list, the folded curve's last point carries the
final bar's timestamp and the final equity plus the final mark-to-market. -/
theorem bt_fold_last_curve {σ : Type} (notional slippage feeBps : Rat)
    (onBar : σ → Bar → σ) (posOf : σ → Rat) :
    ∀ (bars : List Bar) (acc : σ × BTState × Option Rat) (b : Bar),
      bars.getLast? = some b →
      ((bars.foldl (bt_step notional slippage feeBps onBar posOf)
          acc).2.1).curve.getLast? =
        some (b.ts,
          (bars.foldl (bt_step notional slippage feeBps onBar posOf)
            acc).2.1.equity +
          bt_mtm ((bars.foldl (bt_step notional slippage feeBps onBar posOf)
              acc).2.1).pos
            ((bars.foldl (bt_step notional slippage feeBps onBar posOf)
              acc).2.1).entryPx b.c notional) := by
  intro bars
  induction bars with
  | nil => intro acc b hb; simp at hb
  | cons x rest ih =>
    intro acc b hb
    cases rest with
    | nil =>
      simp only [List.getLast?_singleton, Option.some.injEq] at hb
      subst hb
      rw [List.foldl_cons, List.foldl_nil, bt_step_curve,
        List.getLast?_concat]
    | cons y rest2 =>
      rw [List.foldl_cons]
      have hb2 : (y :: rest2).getLast? = some b := by
        rwa [List.getLast?_cons_cons] at hb
      exact ih (bt_step notional slippage feeBps onBar posOf acc x) b hb2

/-- C8: for a non-empty bar list, the final equity-curve point equals
`initial_equity + sum(trade pnl) + mark-to-market of the open position at the
final bar` (signed exposure times final close minus entry, times
`notional_per_unit`). -/
theorem backtest_final_equity_roundtrip {σ : Type} (bars : List Bar)
    (sinit : σ) (onBar : σ → Bar → σ) (posOf : σ → Rat)
    (notional slippage feeBps initialEquity : Rat) (b : Bar)
    (hb : bars.getLast? = some b) :
    (run_backtest bars sinit onBar posOf notional slippage feeBps
        initialEquity).2.1.curve.getLast? =
      some (b.ts,
        initialEquity +
        bt_pnl_sum (run_backtest bars sinit onBar posOf notional slippage
          feeBps initialEquity).2.1.trades +
        bt_mtm (run_backtest bars sinit onBar posOf notional slippage feeBps
            initialEquity).2.1.pos
          (run_backtest bars sinit onBar posOf notional slippage feeBps
            initialEquity).2.1.entryPx b.c notional) := by
  unfold run_backtest
  have hlast := bt_fold_last_curve notional slippage feeBps onBar posOf bars
    ⟨sinit, ⟨initialEquity, [], [], 0, none, [], initialEquity, 0⟩, none⟩ b hb
  have hequity := bt_fold_equity notional slippage feeBps onBar posOf
    initialEquity bars
    ⟨sinit, ⟨initialEquity, [], [], 0, none, [], initialEquity, 0⟩, none⟩
    (by simp [bt_pnl_sum])
  rw [hlast]
  have heq2 : (bars.foldl (bt_step notional slippage feeBps onBar posOf)
      ⟨sinit, ⟨initialEquity, [], [], 0, none, [], initialEquity, 0⟩,
        none⟩).2.1.equity =
    initialEquity + bt_pnl_sum (bars.foldl (bt_step notional slippage feeBps
      onBar posOf) ⟨sinit, ⟨initialEquity, [], [], 0, none, [],
        initialEquity, 0⟩, none⟩).2.1.trades := by
    linarith [hequity]
  rw [heq2]

/-- Concrete bar for the C8 witness. -/
def c8Bar : Bar := ⟨1, 1, 1, 1, 2⟩

/-- Witness for `backtest_final_equity_roundtrip`: an always-long strategy
over one bar. -/
theorem backtest_final_equity_roundtrip_witness :
    (run_backtest [c8Bar] (0 : Rat) (fun s _ => s + 1) (fun s => s) 1 0 0
        100).2.1.curve.getLast? =
      some (c8Bar.ts,
        100 +
        bt_pnl_sum (run_backtest [c8Bar] (0 : Rat) (fun s _ => s + 1)
          (fun s => s) 1 0 0 100).2.1.trades +
        bt_mtm (run_backtest [c8Bar] (0 : Rat) (fun s _ => s + 1)
            (fun s => s) 1 0 0 100).2.1.pos
          (run_backtest [c8Bar] (0 : Rat) (fun s _ => s + 1) (fun s => s)
            1 0 0 100).2.1.entryPx c8Bar.c 1) :=
  backtest_final_equity_roundtrip [c8Bar] 0 (fun s _ => s + 1) (fun s => s)
    1 0 0 100 c8Bar rfl

/-- A session returned by `create_session` starts with `daily_loss = 0`. -/
theorem create_session_daily (sessions : List PaperTradingSession)
    (sid aid sn : String) (sp : List (String × String)) (instr gran : String)
    (mps mdl : Rat) (s0 : PaperTradingSession)
    (h : create_session sessions sid aid sn sp instr gran mps mdl = .ok s0) :
    s0.daily_loss = 0 := by
  unfold create_session at h
  split at h
  · simp at h
  · split at h
    · simp at h
    · simp only [Except.ok.injEq] at h
      rw [← h]

/-- `start_session` never writes `daily_loss`. -/
theorem start_session_daily (s : PaperTradingSession) (now : Rat)
    (nowDt : Int) (ce : Bool) (cc : Except String Unit)
    (bf : Except String Rat) (sf : Option String) :
    (start_session s now nowDt ce cc bf sf).session.daily_loss =
      s.daily_loss := by
  unfold start_session
  repeat' split
  all_goals rfl

/-- `pause_session` never writes `daily_loss`. -/
theorem pause_session_daily (s : PaperTradingSession) :
    (pause_session s).daily_loss = s.daily_loss := by
  unfold pause_session
  split <;> rfl

/-- `resume_session` never writes `daily_loss`. -/
theorem resume_session_daily (s : PaperTradingSession) (now : Rat) :
    (resume_session s now).daily_loss = s.daily_loss := by
  unfold resume_session
  split <;> rfl

/-- `_execute_position_change` never writes `daily_loss`. -/
theorem execute_position_change_daily (s : PaperTradingSession)
    (oldP newP : Rat) (orr : Except String OrderFill) :
    (execute_position_change s oldP newP orr).1.daily_loss =
      s.daily_loss := by
  unfold execute_position_change
  simp only []
  repeat' split
  all_goals rfl

/-- The open-trade and transaction phase never writes `daily_loss`. -/
theorem metrics_open_phase_daily (s2 : PaperTradingSession)
    (trades : List BrokerTrade) (now : Rat)
    (xf : Except String (List BrokerTransaction)) :
    (metrics_open_phase s2 trades now xf).session.daily_loss =
      s2.daily_loss := by
  unfold metrics_open_phase
  simp only []
  split
  case h_1 sAbort heq =>
    have hframe :=
      (open_trades_loop_frame trades { s2 with open_trades := [] } []
        none).2.2.2
    rw [heq] at hframe
    simpa [except_session] using hframe
  case h_2 s4 currentIds heq =>
    have hframe :=
      (open_trades_loop_frame trades { s2 with open_trades := [] } []
        none).2.2.2
    rw [heq] at hframe
    simp only [except_session] at hframe
    obtain ⟨s5, hsh, -, hdaily⟩ := finish_metrics_shape s4 s2.open_trades
      (List.map (fun x => x.1) s2.open_trades) currentIds now xf
    show (finish_metrics s4 s2.open_trades
      (List.map (fun x => x.1) s2.open_trades) currentIds now
        xf).daily_loss = s2.daily_loss
    rw [hsh, final_recompute_daily, hdaily, hframe]

/-- `_update_account_metrics` never writes `daily_loss`, whether the pass
completes or aborts. -/
theorem update_account_metrics_daily (s : PaperTradingSession) (now : Rat)
    (su : Except String AccountSummary)
    (pf : Except String (List BrokerPosRaw))
    (tf : Except String (List BrokerTrade))
    (xf : Except String (List BrokerTransaction)) :
    (update_account_metrics s now su pf tf xf).session.daily_loss =
      s.daily_loss := by
  unfold update_account_metrics
  split
  · rfl
  · split
    · rfl
    · split
      · rfl
      · exact metrics_open_phase_daily _ _ _ _

/-- The candle block of a trading-loop iteration never writes
`daily_loss`. -/
theorem candle_step_daily (s : PaperTradingSession) (now bpi mbp lbt op2 : Rat)
    (fr : Except String (List Bar)) (tgt : Bar → Rat)
    (qt : Except String (Option Rat)) (orr : Except String OrderFill)
    (nowDt : Int) :
    (candle_step s now bpi mbp lbt op2 fr tgt qt orr nowDt).session.daily_loss
      = s.daily_loss := by
  unfold candle_step
  simp only []
  repeat' split
  all_goals first
    | rfl
    | rw [execute_position_change_daily]

/-- The stop flatten phase never writes `daily_loss`. -/
theorem stop_flatten_daily (s : PaperTradingSession) (others : Bool)
    (posFetch : Except String (List BrokerPosRaw)) :
    (stop_flatten s others posFetch).1.daily_loss = s.daily_loss := rfl

/-- Every session left in the registry by `stop_session_apply` carries the
`daily_loss` of a session that was already registered. -/
theorem stop_session_apply_daily (st : EngineState) (sid : String)
    (s : PaperTradingSession) (f : Except String (List BrokerPosRaw))
    (hs : s ∈ st.sessions) :
    ∀ t ∈ (stop_session_apply st sid s f).1.sessions,
      ∃ t0 ∈ st.sessions, t.daily_loss = t0.daily_loss := by
  intro t ht
  simp only [stop_session_apply] at ht
  obtain ⟨t0, ht0, heq⟩ := List.mem_map.mp ht
  subst heq
  by_cases hid : (t0.session_id == sid) = true
  · rw [if_pos hid]
    exact ⟨s, hs, rfl⟩
  · rw [if_neg hid]
    exact ⟨t0, ht0, rfl⟩

/-- Every session left in the registry by `stop_session` carries the
`daily_loss` of a session that was already registered. -/
theorem stop_session_daily (st : EngineState) (sid : String)
    (f : Except String (List BrokerPosRaw)) (st2 : EngineState)
    (cmds : List BrokerCommand) (h : stop_session st sid f = .ok (st2, cmds)) :
    ∀ t ∈ st2.sessions, ∃ t0 ∈ st.sessions, t.daily_loss = t0.daily_loss := by
  unfold stop_session at h
  cases hf : st.sessions.find? (fun t => t.session_id == sid) with
  | none => rw [hf] at h; simp at h
  | some s =>
    rw [hf] at h
    simp only [Except.ok.injEq] at h
    have hs : s ∈ st.sessions := List.mem_of_find?_eq_some hf
    intro t ht
    have h1 : st2 = (stop_session_apply st sid s f).1 := by rw [h]
    rw [h1] at ht
    exact stop_session_apply_daily st sid s f hs t ht

/-- Every session left in the registry by `delete_session` carries the
`daily_loss` of a session that was already registered. -/
theorem delete_session_daily (st : EngineState) (sid : String)
    (f : Except String (List BrokerPosRaw)) :
    ∀ t ∈ (delete_session st sid f).1.sessions,
      ∃ t0 ∈ st.sessions, t.daily_loss = t0.daily_loss := by
  intro t ht
  unfold delete_session at ht
  cases hf : st.sessions.find? (fun t => t.session_id == sid) with
  | none =>
    rw [hf] at ht
    exact ⟨t, ht, rfl⟩
  | some s =>
    rw [hf] at ht
    simp only [] at ht
    rw [List.mem_filter] at ht
    obtain ⟨ht1, -⟩ := ht
    by_cases hrun : (s.status == TradingStatus.running) = true
    · rw [if_pos hrun] at ht1
      exact stop_session_apply_daily st sid s f
        (List.mem_of_find?_eq_some hf) t ht1
    · rw [if_neg hrun] at ht1
      exact ⟨t, ht1, rfl⟩

/-- C9: no engine operation — create, start, stop, pause, resume, delete,
the trading loop's candle block, order execution, or reconciliation — ever
writes `daily_loss`; it stays at its initial value `0`, so for any session
with a positive `max_daily_loss` the risk-breach branch of the trading loop
(`daily_loss >= max_daily_loss` forcing `PAUSED`) is never taken. -/
theorem daily_loss_never_written (sessions : List PaperTradingSession)
    (sid aid sn : String) (sp : List (String × String)) (instr gran : String)
    (mps mdl : Rat) (s0 s : PaperTradingSession) (now : Rat) (nowDt : Int)
    (ce : Bool) (cc : Except String Unit) (bf : Except String Rat)
    (sf : Option String) (oldP newP : Rat) (orr : Except String OrderFill)
    (su : Except String AccountSummary)
    (pf : Except String (List BrokerPosRaw))
    (tf : Except String (List BrokerTrade))
    (xf : Except String (List BrokerTransaction)) (bpi mbp lbt op2 : Rat)
    (fr : Except String (List Bar)) (tgt : Bar → Rat)
    (qt : Except String (Option Rat)) (st st2 : EngineState)
    (posFetch : Except String (List BrokerPosRaw))
    (cmds : List BrokerCommand) :
    (create_session sessions sid aid sn sp instr gran mps mdl = .ok s0 →
      s0.daily_loss = 0) ∧
    (start_session s now nowDt ce cc bf sf).session.daily_loss =
      s.daily_loss ∧
    (pause_session s).daily_loss = s.daily_loss ∧
    (resume_session s now).daily_loss = s.daily_loss ∧
    (execute_position_change s oldP newP orr).1.daily_loss = s.daily_loss ∧
    (update_account_metrics s now su pf tf xf).session.daily_loss =
      s.daily_loss ∧
    (candle_step s now bpi mbp lbt op2 fr tgt qt orr nowDt).session.daily_loss
      = s.daily_loss ∧
    (stop_session st sid posFetch = .ok (st2, cmds) →
      ∀ t ∈ st2.sessions, ∃ t0 ∈ st.sessions,
        t.daily_loss = t0.daily_loss) ∧
    (∀ t ∈ (delete_session st sid posFetch).1.sessions,
      ∃ t0 ∈ st.sessions, t.daily_loss = t0.daily_loss) ∧
    (s.daily_loss = 0 → 0 < s.max_daily_loss →
      risk_breach_check s = false) :=
  ⟨create_session_daily sessions sid aid sn sp instr gran mps mdl s0,
   start_session_daily s now nowDt ce cc bf sf,
   pause_session_daily s,
   resume_session_daily s now,
   execute_position_change_daily s oldP newP orr,
   update_account_metrics_daily s now su pf tf xf,
   candle_step_daily s now bpi mbp lbt op2 fr tgt qt orr nowDt,
   stop_session_daily st sid posFetch st2 cmds,
   delete_session_daily st sid posFetch,
   fun hd hm => decide_eq_false (by rw [hd]; exact not_le.mpr hm)⟩

/-- Witness for `daily_loss_never_written`: concrete start call and the risk
check on a fresh session with positive loss limit. -/
theorem daily_loss_never_written_witness :
    (start_session sampleSession 0 0 true (Except.ok ())
        (Except.ok 100) none).session.daily_loss =
      sampleSession.daily_loss ∧
    risk_breach_check sampleSession = false := by
  have h := daily_loss_never_written [] "s1" "A" "donchian" [] "EUR_USD"
    "M1" 10000 1000 sampleSession sampleSession 0 0 true (Except.ok ())
    (Except.ok 100) none 0 0 (Except.ok {}) (Except.ok c1Summary)
    (Except.ok []) (Except.ok []) (Except.ok []) 0 0 0 0 (Except.ok [])
    (fun _ => 0) (Except.ok none) pausedEngine pausedEngine (Except.ok []) []
  exact ⟨h.2.1, h.2.2.2.2.2.2.2.2.2 rfl (by norm_num [sampleSession])⟩

end StratTester
